import Mathlib

/-!
Verification of the FIRAClient robot-soccer controller.

The development shallowly embeds the two Python modules of the repository:

* `bridge.py` — field constants and the coordinate / angle conversion helpers
  (`convert_width`, `convert_length`, `convert_angle`), plus the referee data
  record and the actuator stop behaviour;
* `main.py` — the objective-assignment strategy (`main_strategy`), the
  wrapped-angle difference (`smallestAngleDiff`), the differential-drive
  controller, and the match loop branch structure.

Floating-point values are modelled as real numbers.  Python's `math.fmod`
(the C `fmod`, truncating towards zero) is modelled by `fmod` below, and
`math.atan2 y x` by the argument of the complex number `x + y*I`.
-/

namespace FIRAClient

open Real

/-- Truncation of a real number towards zero, as C's `fmod` uses. -/
noncomputable def trunc (r : ℝ) : ℤ := if 0 ≤ r then ⌊r⌋ else ⌈r⌉

/-- Model of Python's `math.fmod x y = x - y * trunc (x / y)` (C `fmod`). -/
noncomputable def fmod (x y : ℝ) : ℝ := x - y * (trunc (x / y) : ℝ)

/-- Model of Python's `math.atan2 y x`, the argument of `x + y*I`. -/
noncomputable def atan2 (y x : ℝ) : ℝ := Complex.arg ⟨x, y⟩

/-- `bridge.py`: `NUM_BOTS = 3`. -/
def NUM_BOTS : ℕ := 3

/-- `bridge.py`: `LENGTH = 1.7 / 2.0`, the half length of the field. -/
noncomputable def LENGTH : ℝ := 1.7 / 2

/-- `bridge.py`: `WIDTH = 1.3 / 2.0`, the half width of the field. -/
noncomputable def WIDTH : ℝ := 1.3 / 2

/-- `bridge.py` `convert_width`: `(WIDTH + w) * 100`, and `0` on an absent
input (the Python catches the `TypeError` raised by `WIDTH + None`). -/
noncomputable def convert_width : Option ℝ → ℝ
  | none => 0
  | some w => (WIDTH + w) * 100

/-- `bridge.py` `convert_length`: `(LENGTH + d) * 100`, and `0` on an absent
input. -/
noncomputable def convert_length : Option ℝ → ℝ
  | none => 0
  | some d => (LENGTH + d) * 100

/-- `bridge.py` `convert_angle` on a numeric input: reduce with `fmod` by
`2*π`, then fold once into range by `±2*π`. -/
noncomputable def convert_angle (a : ℝ) : ℝ :=
  let angle := fmod a (2 * π)
  if angle < -π then angle + 2 * π
  else if π < angle then angle - 2 * π
  else angle

/-- `main.py` `smallestAngleDiff`:
`a = fmod(target + 2*pi, 2*pi) - fmod(source + 2*pi, 2*pi)`, then a single
`±2*π` correction. -/
noncomputable def smallestAngleDiff (target source : ℝ) : ℝ :=
  let a := fmod (target + 2 * π) (2 * π) - fmod (source + 2 * π) (2 * π)
  if π < a then a - 2 * π
  else if a < -π then a + 2 * π
  else a

/-! ### Basic lemmas about `fmod` -/

lemma fmod_eq (x y : ℝ) : fmod x y = x - y * (trunc (x / y) : ℝ) := rfl

lemma fmod_sub_int (x y : ℝ) : ∃ k : ℤ, fmod x y = x - y * (k : ℝ) :=
  ⟨trunc (x / y), rfl⟩

lemma fmod_nonneg_lt {x y : ℝ} (hy : 0 < y) (hq : 0 ≤ x / y) :
    0 ≤ fmod x y ∧ fmod x y < y := by
  have h1 : (⌊x / y⌋ : ℝ) ≤ x / y := Int.floor_le _
  have h2 : x / y < (⌊x / y⌋ : ℝ) + 1 := Int.lt_floor_add_one _
  have e1 : y * (⌊x / y⌋ : ℝ) ≤ x := by
    have := mul_le_mul_of_nonneg_right h1 hy.le
    rw [div_mul_cancel₀ _ hy.ne'] at this
    linarith [this, mul_comm ((⌊x / y⌋ : ℝ)) y]
  have e2 : x < y * ((⌊x / y⌋ : ℝ) + 1) := by
    have := mul_lt_mul_of_pos_right h2 hy
    rw [div_mul_cancel₀ _ hy.ne'] at this
    linarith [this, mul_comm ((⌊x / y⌋ : ℝ) + 1) y]
  rw [fmod_eq]
  unfold trunc
  rw [if_pos hq]
  constructor <;> nlinarith

lemma fmod_bounds {y : ℝ} (hy : 0 < y) (x : ℝ) :
    -y < fmod x y ∧ fmod x y < y := by
  by_cases hq : 0 ≤ x / y
  · have h := fmod_nonneg_lt hy hq
    exact ⟨by linarith [h.1], h.2⟩
  · have h1 : x / y ≤ (⌈x / y⌉ : ℝ) := Int.le_ceil _
    have h2 : (⌈x / y⌉ : ℝ) < x / y + 1 := Int.ceil_lt_add_one _
    have e1 : x ≤ y * (⌈x / y⌉ : ℝ) := by
      have := mul_le_mul_of_nonneg_right h1 hy.le
      rw [div_mul_cancel₀ _ hy.ne'] at this
      linarith [this, mul_comm ((⌈x / y⌉ : ℝ)) y]
    have e2 : y * (⌈x / y⌉ : ℝ) < x + y := by
      have := mul_lt_mul_of_pos_right h2 hy
      have e : (x / y + 1) * y = x + y := by
        field_simp
      rw [e] at this
      linarith [this, mul_comm ((⌈x / y⌉ : ℝ)) y]
    rw [fmod_eq]
    unfold trunc
    rw [if_neg hq]
    constructor <;> linarith

lemma fmod_eq_self {x y : ℝ} (hy : 0 < y) (h1 : -y < x) (h2 : x < y) :
    fmod x y = x := by
  have ht : trunc (x / y) = 0 := by
    unfold trunc
    by_cases hq : 0 ≤ x / y
    · rw [if_pos hq]
      exact Int.floor_eq_zero_iff.2 ⟨hq, (div_lt_one hy).2 h2⟩
    · rw [if_neg hq]
      refine Int.ceil_eq_zero_iff.2 ⟨?_, le_of_not_le hq⟩
      have hx : (-1 : ℝ) * y < x := by linarith
      exact (lt_div_iff₀ hy).2 hx
  rw [fmod_eq, ht]
  push_cast
  ring

lemma fmod_add_self {x y : ℝ} (hy : 0 < y) (h1 : 0 ≤ x) (h2 : x < y) :
    fmod (x + y) y = x := by
  have hd : (x + y) / y = x / y + 1 := by
    field_simp
  have ht : trunc ((x + y) / y) = 1 := by
    unfold trunc
    have hq : 0 ≤ (x + y) / y := div_nonneg (by linarith) hy.le
    rw [if_pos hq, hd, Int.floor_add_one,
      Int.floor_eq_zero_iff.2 ⟨div_nonneg h1 hy.le, (div_lt_one hy).2 h2⟩]
    omega
  rw [fmod_eq, ht]
  push_cast
  ring

lemma two_pi_pos : (0 : ℝ) < 2 * π := by positivity

/-- Unfolding lemma for `smallestAngleDiff`. -/
lemma smallestAngleDiff_def (target source : ℝ) :
    smallestAngleDiff target source =
      if π < fmod (target + 2 * π) (2 * π) - fmod (source + 2 * π) (2 * π)
      then fmod (target + 2 * π) (2 * π) - fmod (source + 2 * π) (2 * π) - 2 * π
      else if fmod (target + 2 * π) (2 * π) - fmod (source + 2 * π) (2 * π) < -π
      then fmod (target + 2 * π) (2 * π) - fmod (source + 2 * π) (2 * π) + 2 * π
      else fmod (target + 2 * π) (2 * π) - fmod (source + 2 * π) (2 * π) := rfl

/-- Unfolding lemma for `convert_angle`. -/
lemma convert_angle_def (a : ℝ) :
    convert_angle a =
      if fmod a (2 * π) < -π then fmod a (2 * π) + 2 * π
      else if π < fmod a (2 * π) then fmod a (2 * π) - 2 * π
      else fmod a (2 * π) := rfl

/-- The zero heading-error identity, shared helper. -/
lemma sAD_self (a : ℝ) : smallestAngleDiff a a = 0 := by
  rw [smallestAngleDiff_def, sub_self]
  have c1 : ¬ (π < (0 : ℝ)) := not_lt.2 Real.pi_pos.le
  have c2 : ¬ ((0 : ℝ) < -π) := by
    simp [Real.pi_pos.le]
  rw [if_neg c1, if_neg (by simpa using c2)]

/-- `convert_angle` always lands in the closed interval `[-π, π]`. -/
lemma convert_angle_mem (x : ℝ) :
    -π ≤ convert_angle x ∧ convert_angle x ≤ π := by
  obtain ⟨hb1, hb2⟩ := fmod_bounds two_pi_pos x
  rw [convert_angle_def]
  split_ifs with h1 h2
  · constructor <;> linarith [Real.pi_pos]
  · constructor <;> linarith [Real.pi_pos]
  · constructor <;> linarith

/-- `convert_angle` fixes every point of `[-π, π]`. -/
lemma convert_angle_fixed {r : ℝ} (h1 : -π ≤ r) (h2 : r ≤ π) :
    convert_angle r = r := by
  have hm : fmod r (2 * π) = r := by
    refine fmod_eq_self two_pi_pos ?_ ?_ <;> · nlinarith [Real.pi_pos]
  rw [convert_angle_def, hm]
  rw [if_neg (by linarith), if_neg (by linarith)]

/-! ### Data model

Record shapes follow how `main.py` consumes the field snapshot: a robot
carries `x`, `y` and a heading `a`; the ball carries `x`, `y`; the snapshot
carries the ball and the list `our_bots` of controlled robots (modelled as
a total map from the robot index, the spec fixes exactly `NUM_ROBOTS`
entries). -/

/-- A controlled robot's pose as read by the controller (`our_bot.x`,
`our_bot.y`, `our_bot.a`). -/
structure Bot where
  x : ℝ
  y : ℝ
  a : ℝ

/-- The ball record as read by `main_strategy` (`ball.x`, `ball.y`). -/
structure Ball where
  x : ℝ
  y : ℝ

/-- Modelled from the spec: the `Entity` class imported by `main.py` from the
bridge is absent from the bridge source; per the spec's `Objective` it is a
record `{robotIndex, targetX, targetY}` whose target coordinates default to
`(0, 0)` when not yet assigned. -/
structure Entity where
  index : ℕ
  x : ℝ := 0
  y : ℝ := 0

/-- The per-tick field snapshot as consumed by `main.py`
(`field["ball"]`, `field["our_bots"]`). -/
structure FieldData where
  ball : Ball
  our_bots : ℕ → Bot

/-- One wheel-speed command `{index, left, right}`. -/
structure Speed where
  index : ℕ
  left : ℝ
  right : ℝ

/-- The referee data consumed by the match loop
(`ref_data["game_on"]`, `ref_data["foul"]`). -/
structure RefData where
  game_on : Bool
  foul : ℕ

/-! ### `main.py`: objective assignment and the controller -/

/-- `main_strategy`: build one `Entity(index=i)` per robot index, then set
every objective's coordinates to the ball's. -/
noncomputable def main_strategy (field : FieldData) : List Entity :=
  let objectives := (List.range NUM_BOTS).map fun i => ({ index := i } : Entity)
  objectives.map fun obj => { obj with x := field.ball.x, y := field.ball.y }

/-- Controller gain `Kp = 20`. -/
noncomputable def Kp : ℝ := 20

/-- Controller gain `Kd = 2.5`. -/
noncomputable def Kd : ℝ := 2.5

/-- Controller constant `baseSpeed = 30`. -/
noncomputable def baseSpeed : ℝ := 30

/-- `angle_obj = atan2(objective.y - our_bot.y, objective.x - our_bot.x)`. -/
noncomputable def angleObj (bot : Bot) (obj : Entity) : ℝ :=
  atan2 (obj.y - bot.y) (obj.x - bot.x)

/-- The first heading error `error = smallestAngleDiff(angle_rob, angle_obj)`
computed before the reverse test. -/
noncomputable def initialError (bot : Bot) (obj : Entity) : ℝ :=
  smallestAngleDiff bot.a (angleObj bot obj)

/-- The reverse-heading test `fabs(error) > pi / 2.0 + pi / 20.0`. -/
def reversedCond (bot : Bot) (obj : Entity) : Prop :=
  π / 2 + π / 20 < |initialError bot obj|

noncomputable instance (bot : Bot) (obj : Entity) :
    Decidable (reversedCond bot obj) := by
  unfold reversedCond
  infer_instance

/-- The heading error fed to the PD term: recomputed against the flipped
heading `convert_angle(angle_rob + pi)` when the reverse test fires. -/
noncomputable def usedError (bot : Bot) (obj : Entity) : ℝ :=
  if reversedCond bot obj then
    smallestAngleDiff (convert_angle (bot.a + π)) (angleObj bot obj)
  else initialError bot obj

/-- `error_speed = (Kp * error) + (Kd * (error - controller.lastError))`. -/
noncomputable def rawErrorSpeed (bot : Bot) (obj : Entity) (lastError : ℝ) : ℝ :=
  Kp * usedError bot obj + Kd * (usedError bot obj - lastError)

/-- The two-step normalisation of `error_speed` against `baseSpeed`. -/
noncomputable def clampedErrorSpeed (bot : Bot) (obj : Entity) (lastError : ℝ) : ℝ :=
  let es1 := if rawErrorSpeed bot obj lastError < baseSpeed
    then rawErrorSpeed bot obj lastError else baseSpeed
  if -baseSpeed < es1 then es1 else -baseSpeed

/-- One iteration of the controller's per-robot loop body: returns
`(left_motor_speed, right_motor_speed, error)` where `error` is the value
stored back into `controller.lastError`. -/
noncomputable def controllerStep (bot : Bot) (obj : Entity) (lastError : ℝ) :
    ℝ × ℝ × ℝ :=
  let es := clampedErrorSpeed bot obj lastError
  let fwd : ℝ × ℝ :=
    if 0 < es then (baseSpeed, baseSpeed - es) else (baseSpeed + es, baseSpeed)
  let out : ℝ × ℝ :=
    if reversedCond bot obj then
      if 0 < es then (-baseSpeed + es, -baseSpeed) else (-baseSpeed, -baseSpeed - es)
    else fwd
  (out.1, out.2, usedError bot obj)

/-- The controller's loop over the robot indices, threading the single
`controller.lastError` attribute through the iterations. -/
noncomputable def controllerAux (bots : ℕ → Bot) (objs : ℕ → Entity) :
    List ℕ → ℝ → List Speed × ℝ
  | [], lastError => ([], lastError)
  | i :: rest, lastError =>
    let st := controllerStep (bots i) (objs i) lastError
    let t := controllerAux bots objs rest st.2.2
    (⟨i, st.1, st.2.1⟩ :: t.1, t.2)

/-- `controller(field, objectives)` with the incoming value of the
function-attribute `controller.lastError` made explicit (it is initialised
to `0` the first time the controller ever runs); returns the speed list and
the attribute's final value. -/
noncomputable def controller (field : FieldData) (objs : ℕ → Entity)
    (lastError : ℝ) : List Speed × ℝ :=
  controllerAux field.our_bots objs (List.range NUM_BOTS) lastError

/-- `Actuator.stop()`: send `(i, 0, 0)` for every robot index. -/
def stopSpeeds : List Speed :=
  (List.range NUM_BOTS).map fun i => ⟨i, 0, 0⟩

/-- One iteration of the match loop's branch structure: when the referee
reports the game on, run strategy and controller and dispatch the speeds;
otherwise (the `foul != 7` branch and the halt branch alike) dispatch
`Actuator.stop()` and leave the controller state untouched. -/
noncomputable def tick (ref : RefData) (field : FieldData) (lastError : ℝ) :
    List Speed × ℝ :=
  if ref.game_on then
    controller field (fun i => (main_strategy field).getD i ⟨0, 0, 0⟩) lastError
  else if ref.foul ≠ 7 then (stopSpeeds, lastError)
  else (stopSpeeds, lastError)

/-- The claim's model of the controller state: a separate `lastHeadingError`
per robot index, each robot's derivative term reading its own cell. -/
noncomputable def controllerPerIndexSpec (bots : ℕ → Bot) (objs : ℕ → Entity)
    (lasts : ℕ → ℝ) : List Speed :=
  (List.range NUM_BOTS).map fun i =>
    ⟨i, (controllerStep (bots i) (objs i) (lasts i)).1,
      (controllerStep (bots i) (objs i) (lasts i)).2.1⟩

/-! ### Unfolding and evaluation helpers for the controller -/

/-- Unfolding lemma for `controllerStep`. -/
lemma controllerStep_parts (bot : Bot) (obj : Entity) (lastError : ℝ) :
    controllerStep bot obj lastError =
      ((if reversedCond bot obj then
          if 0 < clampedErrorSpeed bot obj lastError
          then ((-baseSpeed + clampedErrorSpeed bot obj lastError, -baseSpeed) : ℝ × ℝ)
          else (-baseSpeed, -baseSpeed - clampedErrorSpeed bot obj lastError)
        else
          if 0 < clampedErrorSpeed bot obj lastError
          then (baseSpeed, baseSpeed - clampedErrorSpeed bot obj lastError)
          else (baseSpeed + clampedErrorSpeed bot obj lastError, baseSpeed)).1,
       (if reversedCond bot obj then
          if 0 < clampedErrorSpeed bot obj lastError
          then ((-baseSpeed + clampedErrorSpeed bot obj lastError, -baseSpeed) : ℝ × ℝ)
          else (-baseSpeed, -baseSpeed - clampedErrorSpeed bot obj lastError)
        else
          if 0 < clampedErrorSpeed bot obj lastError
          then (baseSpeed, baseSpeed - clampedErrorSpeed bot obj lastError)
          else (baseSpeed + clampedErrorSpeed bot obj lastError, baseSpeed)).2,
       usedError bot obj) := rfl

/-- Unfolding lemma for `clampedErrorSpeed`. -/
lemma clampedErrorSpeed_def (bot : Bot) (obj : Entity) (lastError : ℝ) :
    clampedErrorSpeed bot obj lastError =
      if -baseSpeed <
          (if rawErrorSpeed bot obj lastError < baseSpeed
            then rawErrorSpeed bot obj lastError else baseSpeed)
      then (if rawErrorSpeed bot obj lastError < baseSpeed
            then rawErrorSpeed bot obj lastError else baseSpeed)
      else -baseSpeed := rfl

lemma atan2_zero_one : atan2 0 1 = 0 := by
  unfold atan2
  have h : (⟨1, 0⟩ : ℂ) = 1 := by
    apply Complex.ext <;> simp
  rw [h, Complex.arg_one]

lemma sAD_pi_half_zero : smallestAngleDiff (π / 2) 0 = π / 2 := by
  have e1 : fmod (π / 2 + 2 * π) (2 * π) = π / 2 :=
    fmod_add_self two_pi_pos (by positivity) (by nlinarith [Real.pi_pos])
  have e2 : fmod (0 + 2 * π) (2 * π) = 0 :=
    fmod_add_self two_pi_pos le_rfl two_pi_pos
  rw [smallestAngleDiff_def, e1, e2]
  rw [if_neg (by nlinarith [Real.pi_pos]), if_neg (by nlinarith [Real.pi_pos])]
  ring

lemma angleObj_eval (aa : ℝ) (k : ℕ) :
    angleObj ⟨0, 0, aa⟩ ⟨k, 1, 0⟩ = 0 := by
  unfold angleObj
  norm_num [atan2_zero_one]

/-- Controller-loop body at a robot heading `π/2` whose objective lies on the
positive x-axis, with incoming state `0`: the PD term saturates at
`baseSpeed`. -/
lemma stepA : controllerStep ⟨0, 0, π / 2⟩ ⟨0, 1, 0⟩ 0 = (30, 0, π / 2) := by
  have hang := angleObj_eval (π / 2) 0
  have hinit : initialError ⟨0, 0, π / 2⟩ ⟨0, 1, 0⟩ = π / 2 := by
    show smallestAngleDiff (π / 2) (angleObj ⟨0, 0, π / 2⟩ ⟨0, 1, 0⟩) = π / 2
    rw [hang, sAD_pi_half_zero]
  have hrev : ¬ reversedCond ⟨0, 0, π / 2⟩ ⟨0, 1, 0⟩ := by
    unfold reversedCond
    rw [hinit, abs_of_nonneg (by positivity)]
    push_neg
    linarith [Real.pi_pos]
  have huse : usedError ⟨0, 0, π / 2⟩ ⟨0, 1, 0⟩ = π / 2 := by
    unfold usedError
    rw [if_neg hrev, hinit]
  have hraw : rawErrorSpeed ⟨0, 0, π / 2⟩ ⟨0, 1, 0⟩ 0 = 45 * π / 4 := by
    unfold rawErrorSpeed Kp Kd
    rw [huse]
    norm_num
    ring
  have hcl : clampedErrorSpeed ⟨0, 0, π / 2⟩ ⟨0, 1, 0⟩ 0 = 30 := by
    rw [clampedErrorSpeed_def, hraw]
    unfold baseSpeed
    have h1 : ¬ (45 * π / 4 < (30 : ℝ)) := by nlinarith [Real.pi_gt_three]
    rw [if_neg h1, if_pos (by norm_num)]
  rw [controllerStep_parts, hcl, huse]
  simp only [if_neg hrev]
  unfold baseSpeed
  norm_num

/-- Controller-loop body at a robot already pointed at its objective, with a
small nonnegative incoming state `L`: only the derivative term acts. -/
lemma stepB (k : ℕ) (L : ℝ) (h0 : 0 ≤ L) (h12 : L < 12) :
    controllerStep ⟨0, 0, 0⟩ ⟨k, 1, 0⟩ L = (30 - 2.5 * L, 30, 0) := by
  have hang := angleObj_eval 0 k
  have hinit : initialError ⟨0, 0, 0⟩ ⟨k, 1, 0⟩ = 0 := by
    show smallestAngleDiff 0 (angleObj ⟨0, 0, 0⟩ ⟨k, 1, 0⟩) = 0
    rw [hang, sAD_self]
  have hrev : ¬ reversedCond ⟨0, 0, 0⟩ ⟨k, 1, 0⟩ := by
    unfold reversedCond
    rw [hinit, abs_zero]
    push_neg
    positivity
  have huse : usedError ⟨0, 0, 0⟩ ⟨k, 1, 0⟩ = 0 := by
    unfold usedError
    rw [if_neg hrev, hinit]
  have hraw : rawErrorSpeed ⟨0, 0, 0⟩ ⟨k, 1, 0⟩ L = -(2.5 * L) := by
    unfold rawErrorSpeed Kp Kd
    rw [huse]
    ring
  have hcl : clampedErrorSpeed ⟨0, 0, 0⟩ ⟨k, 1, 0⟩ L = -(2.5 * L) := by
    rw [clampedErrorSpeed_def, hraw]
    unfold baseSpeed
    have h1 : -(2.5 * L) < (30 : ℝ) := by nlinarith
    have h2 : -(30 : ℝ) < -(2.5 * L) := by nlinarith
    rw [if_pos h1, if_pos h2]
  rw [controllerStep_parts, hcl, huse]
  simp only [if_neg hrev]
  unfold baseSpeed
  rw [if_neg (by nlinarith)]
  norm_num
  ring

/-! ### A concrete field exposing the shared controller state

Robot 0 sits at the origin heading `π/2`; robots 1 and 2 sit at the origin
already heading straight at the shared objective `(1, 0)`.  On the first tick
robot 0 stores a heading error of `π/2` into the shared
`controller.lastError`, which robot 1 then reads on the same tick. -/

noncomputable def cBots : ℕ → Bot := fun i =>
  if i = 0 then ⟨0, 0, π / 2⟩ else ⟨0, 0, 0⟩

noncomputable def cObjs : ℕ → Entity := fun i => ⟨i, 1, 0⟩

noncomputable def cField : FieldData := ⟨⟨0, 0⟩, cBots⟩

lemma controller_eval :
    (controller cField cObjs 0).1 =
      [⟨0, 30, 0⟩, ⟨1, 30 - 2.5 * (π / 2), 30⟩, ⟨2, 30, 30⟩] := by
  have hB1 := stepB 1 (π / 2) (by positivity) (by nlinarith [Real.pi_lt_d2])
  have hB2 := stepB 2 0 le_rfl (by norm_num)
  have hc0 : cBots 0 = ⟨0, 0, π / 2⟩ := rfl
  have hc1 : cBots 1 = ⟨0, 0, 0⟩ := rfl
  have hc2 : cBots 2 = ⟨0, 0, 0⟩ := rfl
  have ho0 : cObjs 0 = ⟨0, 1, 0⟩ := rfl
  have ho1 : cObjs 1 = ⟨1, 1, 0⟩ := rfl
  have ho2 : cObjs 2 = ⟨2, 1, 0⟩ := rfl
  show (controllerAux cBots cObjs [0, 1, 2] 0).1 = _
  simp only [controllerAux, hc0, hc1, hc2, ho0, ho1, ho2, stepA]
  norm_num [hB1, hB2]

lemma perIndex_eval :
    controllerPerIndexSpec cBots cObjs (fun _ => 0) =
      [⟨0, 30, 0⟩, ⟨1, 30, 30⟩, ⟨2, 30, 30⟩] := by
  have hB1 := stepB 1 0 le_rfl (by norm_num)
  have hB2 := stepB 2 0 le_rfl (by norm_num)
  have hc0 : cBots 0 = ⟨0, 0, π / 2⟩ := rfl
  have hc1 : cBots 1 = ⟨0, 0, 0⟩ := rfl
  have hc2 : cBots 2 = ⟨0, 0, 0⟩ := rfl
  have ho0 : cObjs 0 = ⟨0, 1, 0⟩ := rfl
  have ho1 : cObjs 1 = ⟨1, 1, 0⟩ := rfl
  have ho2 : cObjs 2 = ⟨2, 1, 0⟩ := rfl
  unfold controllerPerIndexSpec
  simp only [show List.range NUM_BOTS = [0, 1, 2] from rfl, List.map_cons,
    List.map_nil, hc0, hc1, hc2, ho0, ho1, ho2, stepA]
  norm_num [hB1, hB2]

/-- C1 counterexample: on the concrete first-tick field above, the controller
of `main.py` does not agree with a per-robot-index derivative state all of
whose cells are freshly initialised to `0`: robot 1's derivative term reads
the heading error robot 0 stored earlier on the same tick. -/
theorem controller_not_per_index :
    (controller cField cObjs 0).1 ≠
      controllerPerIndexSpec cBots cObjs (fun _ => 0) := by
  rw [controller_eval, perIndex_eval]
  intro h
  have h2 := congrArg (fun l => (l.getD 1 ⟨0, 0, 0⟩).left) h
  simp only [List.getD_cons_succ, List.getD_cons_zero] at h2
  nlinarith [Real.pi_pos]

/-- C1 amended: the controller's retained derivative state is a single scalar
shared by all robot indices (initialised to `0` the first time the controller
ever runs): on each tick the robots are processed in index order, robot 0's
derivative term reads the value carried over from the previous tick, and each
later robot's derivative term reads the heading error stored by the
immediately preceding robot on the same tick. -/
theorem controller_shared_lastError (field : FieldData) (objs : ℕ → Entity)
    (lastError : ℝ) :
    controller field objs lastError =
      ([⟨0, (controllerStep (field.our_bots 0) (objs 0) lastError).1,
          (controllerStep (field.our_bots 0) (objs 0) lastError).2.1⟩,
        ⟨1, (controllerStep (field.our_bots 1) (objs 1)
              (controllerStep (field.our_bots 0) (objs 0) lastError).2.2).1,
          (controllerStep (field.our_bots 1) (objs 1)
              (controllerStep (field.our_bots 0) (objs 0) lastError).2.2).2.1⟩,
        ⟨2, (controllerStep (field.our_bots 2) (objs 2)
              (controllerStep (field.our_bots 1) (objs 1)
                (controllerStep (field.our_bots 0) (objs 0) lastError).2.2).2.2).1,
          (controllerStep (field.our_bots 2) (objs 2)
              (controllerStep (field.our_bots 1) (objs 1)
                (controllerStep (field.our_bots 0) (objs 0) lastError).2.2).2.2).2.1⟩],
       (controllerStep (field.our_bots 2) (objs 2)
          (controllerStep (field.our_bots 1) (objs 1)
            (controllerStep (field.our_bots 0) (objs 0) lastError).2.2).2.2).2.2) := rfl

/-! ### Claims about the geometry utilities -/

/-- C2 counterexample: `smallestAngleDiff 0 π` evaluates to `-π`, which is
congruent to `0 - π` modulo `2π` but lies outside the half-open interval
`(-π, π]` the claim promises. -/
theorem smallestAngleDiff_boundary_violation :
    smallestAngleDiff 0 π = -π ∧ ¬ (-π < smallestAngleDiff 0 π) := by
  have e1 : fmod (0 + 2 * π) (2 * π) = 0 :=
    fmod_add_self two_pi_pos le_rfl two_pi_pos
  have e2 : fmod (π + 2 * π) (2 * π) = π :=
    fmod_add_self two_pi_pos Real.pi_pos.le (by nlinarith [Real.pi_pos])
  have hval : smallestAngleDiff 0 π = -π := by
    have c1 : ¬ (π < (0 : ℝ) - π) := by linarith [Real.pi_pos]
    have c2 : ¬ ((0 : ℝ) - π < -π) := by linarith
    rw [smallestAngleDiff_def, e1, e2, if_neg c1, if_neg c2]
    ring
  exact ⟨hval, by rw [hval]; exact lt_irrefl _⟩

/-- C2 amended: `smallestAngleDiff target source` is always congruent to
`target - source` modulo `2π`, and whenever both inputs are at least `-2π`
(in particular for all headings and bearings the program feeds it) the result
lies in the closed interval `[-π, π]`; at the wrap-around boundary the code
may return `-π` where the claim demanded `π`. -/
theorem smallestAngleDiff_range_congruence (target source : ℝ)
    (ht : -(2 * π) ≤ target) (hs : -(2 * π) ≤ source) :
    (-π ≤ smallestAngleDiff target source ∧ smallestAngleDiff target source ≤ π) ∧
    ∃ k : ℤ, smallestAngleDiff target source = target - source + 2 * π * (k : ℝ) := by
  obtain ⟨h10, h12⟩ := fmod_nonneg_lt two_pi_pos
    (div_nonneg (by linarith) two_pi_pos.le) (x := target + 2 * π)
  obtain ⟨h20, h22⟩ := fmod_nonneg_lt two_pi_pos
    (div_nonneg (by linarith) two_pi_pos.le) (x := source + 2 * π)
  obtain ⟨k1, hk1⟩ := fmod_sub_int (target + 2 * π) (2 * π)
  obtain ⟨k2, hk2⟩ := fmod_sub_int (source + 2 * π) (2 * π)
  rw [smallestAngleDiff_def]
  split_ifs with h1 h2
  · refine ⟨⟨by linarith, by linarith [Real.pi_pos]⟩, ⟨k2 - k1 - 1, ?_⟩⟩
    rw [hk1, hk2]
    push_cast
    ring
  · refine ⟨⟨by linarith [Real.pi_pos], by linarith⟩, ⟨k2 - k1 + 1, ?_⟩⟩
    rw [hk1, hk2]
    push_cast
    ring
  · refine ⟨⟨by linarith, by linarith⟩, ⟨k2 - k1, ?_⟩⟩
    rw [hk1, hk2]
    push_cast
    ring

/-- Witness for the amended C2 theorem at `target = source = 0`. -/
theorem smallestAngleDiff_range_congruence_witness :
    (-(2 * π) ≤ (0 : ℝ)) ∧
    ((-π ≤ smallestAngleDiff 0 0 ∧ smallestAngleDiff 0 0 ≤ π) ∧
      ∃ k : ℤ, smallestAngleDiff 0 0 = 0 - 0 + 2 * π * (k : ℝ)) :=
  ⟨by linarith [Real.pi_pos],
    smallestAngleDiff_range_congruence 0 0 (by linarith [Real.pi_pos])
      (by linarith [Real.pi_pos])⟩

/-- C7: the coordinate conversions are total: on a present numeric input they
compute `(half-field + raw) * 100` (that is `100*raw + 85` cm along the
length and `100*raw + 65` cm along the width), and on an absent input they
return `0` instead of failing. -/
theorem convert_length_width_total :
    (∀ r : ℝ, convert_length (some r) = 100 * r + 85 ∧
      convert_width (some r) = 100 * r + 65) ∧
    convert_length none = 0 ∧ convert_width none = 0 := by
  refine ⟨fun r => ⟨?_, ?_⟩, rfl, rfl⟩
  · show (LENGTH + r) * 100 = 100 * r + 85
    unfold LENGTH
    ring_nf
  · show (WIDTH + r) * 100 = 100 * r + 65
    unfold WIDTH
    ring_nf

/-- C8: the heading error of a robot already pointed at its target bearing is
exactly zero: `smallestAngleDiff a a = 0` for every real `a`. -/
theorem smallestAngleDiff_self_zero (a : ℝ) : smallestAngleDiff a a = 0 :=
  sAD_self a

/-- C9: `convert_angle` is idempotent: applying it to its own output returns
the output unchanged, for every real input. -/
theorem convert_angle_idempotent (x : ℝ) :
    convert_angle (convert_angle x) = convert_angle x :=
  convert_angle_fixed (convert_angle_mem x).1 (convert_angle_mem x).2

/-! ### Claims about the controller's clamp, mix and reverse policy -/

lemma controllerStep_left (bot : Bot) (obj : Entity) (lastError : ℝ) :
    (controllerStep bot obj lastError).1 =
      if reversedCond bot obj then
        (if 0 < clampedErrorSpeed bot obj lastError
          then -baseSpeed + clampedErrorSpeed bot obj lastError else -baseSpeed)
      else
        (if 0 < clampedErrorSpeed bot obj lastError
          then baseSpeed else baseSpeed + clampedErrorSpeed bot obj lastError) := by
  rw [controllerStep_parts]
  split_ifs <;> rfl

lemma controllerStep_right (bot : Bot) (obj : Entity) (lastError : ℝ) :
    (controllerStep bot obj lastError).2.1 =
      if reversedCond bot obj then
        (if 0 < clampedErrorSpeed bot obj lastError
          then -baseSpeed else -baseSpeed - clampedErrorSpeed bot obj lastError)
      else
        (if 0 < clampedErrorSpeed bot obj lastError
          then baseSpeed - clampedErrorSpeed bot obj lastError else baseSpeed) := by
  rw [controllerStep_parts]
  split_ifs <;> rfl

/-- The sequential two-`if` normalisation in the code equals a `max`/`min`
clamp into `[-baseSpeed, baseSpeed]`. -/
lemma clamped_eq_max_min (bot : Bot) (obj : Entity) (lastError : ℝ) :
    clampedErrorSpeed bot obj lastError =
      max (-baseSpeed) (min baseSpeed (rawErrorSpeed bot obj lastError)) := by
  rw [clampedErrorSpeed_def]
  rcases lt_or_le (rawErrorSpeed bot obj lastError) baseSpeed with h | h
  · rw [if_pos h, min_eq_right h.le]
    rcases lt_or_le (-baseSpeed) (rawErrorSpeed bot obj lastError) with h2 | h2
    · rw [if_pos h2, max_eq_right h2.le]
    · rw [if_neg (not_lt.2 h2), max_eq_left h2]
  · rw [if_neg (not_lt.2 h), min_eq_left h]
    have hb : -baseSpeed < baseSpeed := by
      unfold baseSpeed
      norm_num
    rw [if_pos hb, max_eq_right hb.le]

/-- C3: writing `e` for the heading error the step uses (and stores) and
`es` for `Kp*e + Kd*(e - lastError)` clamped into `[-30, 30]`, the wheel
speeds are exactly the claimed differential mix: non-reversed
`(30, 30 - es)` for `es ≥ 0` and `(30 + es, 30)` otherwise; reversed
`(-30 + es, -30)` for `es > 0` and `(-30, -30 - es)` otherwise. -/
theorem controllerStep_clamp_mix (bot : Bot) (obj : Entity) (lastError : ℝ) :
    ∃ e es : ℝ,
      e = (controllerStep bot obj lastError).2.2 ∧
      es = max (-30) (min 30 (Kp * e + Kd * (e - lastError))) ∧
      (controllerStep bot obj lastError).1 =
        (if reversedCond bot obj then (if 0 < es then -30 + es else (-30 : ℝ))
         else (if 0 ≤ es then (30 : ℝ) else 30 + es)) ∧
      (controllerStep bot obj lastError).2.1 =
        (if reversedCond bot obj then (if 0 < es then (-30 : ℝ) else -30 - es)
         else (if 0 ≤ es then 30 - es else (30 : ℝ))) := by
  refine ⟨usedError bot obj, clampedErrorSpeed bot obj lastError, rfl, ?_, ?_, ?_⟩
  · rw [clamped_eq_max_min]
    rfl
  · rw [controllerStep_left]
    unfold baseSpeed
    split_ifs <;> linarith
  · rw [controllerStep_right]
    unfold baseSpeed
    split_ifs <;> linarith

/-- C4: the heading error the controller feeds to the PD term (and stores)
is recomputed against the flipped heading `convert_angle(heading + π)`
exactly when the initial error `smallestAngleDiff(heading, atan2(ty - y,
tx - x))` exceeds `π/2 + π/20` in absolute value, and is the initial error
otherwise. -/
theorem controllerStep_reverse_policy (bot : Bot) (obj : Entity) (lastError : ℝ) :
    (controllerStep bot obj lastError).2.2 =
      if π / 2 + π / 20 <
          |smallestAngleDiff bot.a (atan2 (obj.y - bot.y) (obj.x - bot.x))|
      then smallestAngleDiff (convert_angle (bot.a + π))
            (atan2 (obj.y - bot.y) (obj.x - bot.x))
      else smallestAngleDiff bot.a (atan2 (obj.y - bot.y) (obj.x - bot.x)) := rfl

/-- C10: both wheel speeds always lie in `[-30, 30]`; moreover they both lie
in `[0, 30]` when reversed mode is not triggered and in `[-30, 0]` when it
is — strictly inside the spec's `[-60, 60]` envelope. -/
theorem controllerStep_speed_bounds (bot : Bot) (obj : Entity) (lastError : ℝ) :
    ((-30 : ℝ) ≤ (controllerStep bot obj lastError).1 ∧
      (controllerStep bot obj lastError).1 ≤ 30 ∧
      (-30 : ℝ) ≤ (controllerStep bot obj lastError).2.1 ∧
      (controllerStep bot obj lastError).2.1 ≤ 30) ∧
    (if reversedCond bot obj then
      (controllerStep bot obj lastError).1 ≤ 0 ∧
        (controllerStep bot obj lastError).2.1 ≤ 0
     else
      0 ≤ (controllerStep bot obj lastError).1 ∧
        0 ≤ (controllerStep bot obj lastError).2.1) := by
  have hb : (-30 : ℝ) ≤ clampedErrorSpeed bot obj lastError ∧
      clampedErrorSpeed bot obj lastError ≤ 30 := by
    rw [clampedErrorSpeed_def]
    unfold baseSpeed
    split_ifs <;> constructor <;> linarith
  rw [controllerStep_left, controllerStep_right]
  unfold baseSpeed
  split_ifs <;>
    refine ⟨⟨?_, ?_, ?_, ?_⟩, ?_, ?_⟩ <;> linarith [hb.1, hb.2]

/-! ### Claims about the strategy and the match loop -/

/-- C5: objective assignment is total and returns exactly `NUM_BOTS`
objectives carrying the indices `0, …, NUM_BOTS - 1` in order (no
duplicates, no omissions), every one targeting the ball's coordinates. -/
theorem main_strategy_contract (field : FieldData) :
    (main_strategy field).length = NUM_BOTS ∧
    (main_strategy field).map Entity.index = List.range NUM_BOTS ∧
    (main_strategy field).map Entity.x = List.replicate NUM_BOTS field.ball.x ∧
    (main_strategy field).map Entity.y = List.replicate NUM_BOTS field.ball.y := by
  unfold main_strategy
  refine ⟨by simp, ?_, ?_, ?_⟩ <;>
    simp [List.map_map, Function.comp_def, List.map_const']

/-- C6: whenever the referee's interrupt is anything other than `GAME_ON`
(in particular `HALT = 7`, for which `gameOn` is false by the data-model
invariant `gameOn ↔ interruptType == GAME_ON`), the match-loop tick sends
every robot the command `(left = 0, right = 0)` irrespective of the field
contents, and leaves the controller state untouched. -/
theorem tick_stop_on_interrupt (ref : RefData) (field : FieldData)
    (lastError : ℝ) (hinv : ref.game_on = true ↔ ref.foul = 6)
    (hnot : ref.foul ≠ 6) :
    tick ref field lastError =
      ((List.range NUM_BOTS).map fun i => ⟨i, 0, 0⟩, lastError) := by
  have hoff : ref.game_on = false := by
    rcases Bool.eq_false_or_eq_true ref.game_on with h | h
    · exact absurd (hinv.1 h) hnot
    · exact h
  simp [tick, hoff, stopSpeeds]

/-- A fixed arbitrary field snapshot for the match-loop witness. -/
noncomputable def wField : FieldData := ⟨⟨0, 0⟩, fun _ => ⟨0, 0, 0⟩⟩

/-- Witness for C6 at the halt interrupt `foul = 7` with `gameOn = false`. -/
theorem tick_stop_on_interrupt_witness :
    (((false : Bool) = true ↔ (7 : ℕ) = 6) ∧ (7 : ℕ) ≠ 6) ∧
    tick ⟨false, 7⟩ wField 0 =
      ((List.range NUM_BOTS).map fun i => ⟨i, 0, 0⟩, 0) :=
  ⟨⟨by simp, by norm_num⟩,
    tick_stop_on_interrupt ⟨false, 7⟩ wField 0 (by simp) (by norm_num)⟩
